import Mathlib

set_option maxHeartbeats 1000000

attribute [local semireducible] Rat.sub Rat.mul Rat.inv Rat.add

/-!
Shallow embedding of the LedgerAI reconciliation matcher, the function
reconcile_invoice_with_ai of src/agents/reconciliation_agents.py.

Modelling choices:
* Python floats are modelled as rationals; cell values that may be
  non-numeric (DataFrame cells, invoice dict entries) are a sum type Val,
  and Python float() is pyFloat, which fails with PyErr.valueError on a
  non-numeric string, exactly as float("N/A") raises ValueError.
* The fuzzy scorer (thefuzz, an external library) and the Gemini judgment
  service are external collaborators: the embedding takes them as
  parameters (Score, Judge).  A Judge call returns Except Unit
  (Option String): .error models a raised exception, .ok none a falsy
  response or one without a .text attribute, .ok (some s) a response with
  text s.
* Besides its result, the embedding returns a trace of Events recording
  every scorer evaluation and every judgment-service call together with
  the loop index of the transaction concerned, so that claims about which
  candidates are examined can be stated.
-/

instance exceptDecEq {ε α : Type} [DecidableEq ε] [DecidableEq α] :
    DecidableEq (Except ε α) := fun x y =>
  match x, y with
  | .ok a, .ok b =>
    if h : a = b then isTrue (by rw [h]) else isFalse (by simp [h])
  | .error a, .error b =>
    if h : a = b then isTrue (by rw [h]) else isFalse (by simp [h])
  | .ok _, .error _ => isFalse (by simp)
  | .error _, .ok _ => isFalse (by simp)

/-- Python str.lower() (ASCII case mapping), as a kernel-reducible map
over the character list of the string. -/
def lowerStr (s : String) : String := String.mk (s.data.map Char.toLower)

/-- Python str.upper() (ASCII case mapping). -/
def upperStr (s : String) : String := String.mk (s.data.map Char.toUpper)

/-- Remove leading and trailing whitespace from a character list. -/
def stripChars (cs : List Char) : List Char :=
  ((cs.dropWhile Char.isWhitespace).reverse.dropWhile Char.isWhitespace).reverse

/-- Python str.strip(). -/
def stripStr (s : String) : String := String.mk (stripChars s.data)

/-- Python s.startswith(p). -/
def startsWithStr (s p : String) : Bool := p.data.isPrefixOf s.data

/-- Python runtime error raised by float() on garbage input. -/
inductive PyErr where
  | valueError
  deriving DecidableEq, Repr

/-- A cell value as it may appear in the invoice dict or in the
transactions DataFrame: numeric, or a raw string. -/
inductive Val where
  | vnum (q : ℚ)
  | vstr (s : String)
  deriving DecidableEq, Repr

/-- Digit-string to Nat; fails on empty or non-digit input. -/
def parseDigits (cs : List Char) : Option Nat :=
  if cs = [] then none
  else if cs.all (fun c => c.isDigit) then
    some (cs.foldl (fun n c => 10 * n + (c.toNat - 48)) 0)
  else none

/-- Modelled from Python float(string): optional sign followed by a plain
decimal literal (digits with an optional fractional part).  Exotic float
syntax (exponents, inf, nan) is rejected; no claim depends on it. -/
def pyFloatOfString (s : String) : Option ℚ :=
  let cs := s.toList
  let sgn : ℚ := if cs.head? = some '-' then -1 else 1
  let body := if cs.head? = some '-' ∨ cs.head? = some '+' then cs.tail else cs
  let ip := body.takeWhile (fun c => c ≠ '.')
  let rest := body.dropWhile (fun c => c ≠ '.')
  match rest with
  | [] => (parseDigits ip).map (fun m => sgn * (m : ℚ))
  | _ :: frac =>
    if frac.contains '.' then none
    else if ip = [] then
      (parseDigits frac).map (fun m => sgn * (m : ℚ) / (10 : ℚ) ^ frac.length)
    else if frac = [] then
      (parseDigits ip).map (fun m => sgn * (m : ℚ))
    else
      match parseDigits ip, parseDigits frac with
      | some a, some b => some (sgn * ((a : ℚ) + (b : ℚ) / (10 : ℚ) ^ frac.length))
      | _, _ => none

/-- Python float() on a cell value: numbers pass through, strings are
parsed (surrounding whitespace stripped, as Python does), anything else
raises ValueError. -/
def pyFloat : Val → Except PyErr ℚ
  | .vnum q => .ok q
  | .vstr s =>
    match pyFloatOfString (stripStr s) with
    | some q => .ok q
    | none => .error .valueError

/-- Python abs() on the modelled floats. -/
def pyAbs (q : ℚ) : ℚ := if q < 0 then -q else q

/-- One bank-statement row as read from the transactions DataFrame.
The amount cell is kept as a raw Val because float(txn['amount']) may
fail on a malformed row. -/
structure Transaction where
  id : Nat
  description : String
  amount : Val
  type : String
  status : String
  deriving DecidableEq, Repr

/-- The extracted-invoice dict.  Fields are optional: invoice_data.get
falls back to a default when a key is missing. -/
structure Invoice where
  vendor_name : Option String := none
  invoice_number : Option String := none
  total_amount : Option Val := none
  due_date : Option String := none
  deriving DecidableEq, Repr

/-- The decision dict returned by reconcile_invoice_with_ai.  Keys absent
from a given return dict are the default none. -/
structure MatchDecision where
  status : String
  transaction_id : Option Nat := none
  confidence : Option String := none
  reason : String
  matched_data : Option Transaction := none
  deriving DecidableEq, Repr

/-- Trace events: a scorer evaluation (with the resulting text_score) or a
judgment-service call, tagged with the loop index of the transaction. -/
inductive Event where
  | scored (idx : Nat) (score : Nat)
  | judged (idx : Nat)
  deriving DecidableEq, Repr

/-- Loop index a trace event refers to. -/
def Event.idx : Event → Nat
  | .scored i _ => i
  | .judged i => i

/-- The external fuzzy scorer (thefuzz fuzz.partial_ratio): a function
from the two compared strings to an integer score. -/
abbrev Score := String → String → Nat

/-- Structured content of the prompt sent to the judgment service: the
interpolated values of the prompt template in the source. -/
structure JudgeQuery where
  vendor : String
  number : String
  invoice_amount : ℚ
  description : String
  txn_amount : ℚ
  deriving DecidableEq

/-- The external judgment service.  .error models a raised exception,
.ok none a falsy response or one without a text attribute, .ok (some s)
a response whose text is s. -/
abbrev Judge := JudgeQuery → Except Unit (Option String)

/-- text_score of a candidate: the maximum of the two partial-ratio
scores, vendor name and invoice number each against the description. -/
def textScore (score : Score) (inv_vendor inv_num desc : String) : Nat :=
  max (score inv_vendor desc) (score inv_num desc)

/-- Outcome of processing one transaction of the loop: halt the scan with
a result (a returned decision, or a propagated error), or fall through to
the next transaction.  Either way the events of this candidate are kept. -/
inductive StepOut where
  | halt (r : Except PyErr MatchDecision) (evs : List Event)
  | next (evs : List Event)
  deriving Repr

/-- Events recorded by one step outcome. -/
def StepOut.events : StepOut → List Event
  | .halt _ evs => evs
  | .next evs => evs

/-- Body of the per-transaction loop of reconcile_invoice_with_ai:
debit filter, float(txn['amount']), fuzzy text_score, the exact-match
return, the fee-range check, and the judgment-service call with its
YES-parsing, failures caught. -/
def step (score : Score) (judge : Judge) (inv_vendor inv_num : String)
    (inv_amount : ℚ) (i : Nat) (txn : Transaction) : StepOut :=
  if lowerStr txn.type ≠ "debit" then .next []
  else
    let txn_desc := lowerStr txn.description
    match pyFloat txn.amount with
    | .error e => .halt (.error e) []
    | .ok txn_amount =>
      let text_score := textScore score inv_vendor inv_num txn_desc
      if inv_amount = txn_amount ∧ 50 < text_score then
        .halt (.ok { status := "Exact Match",
                     transaction_id := some txn.id,
                     confidence := some "100%",
                     reason := "Exact amount and strong text match found.",
                     matched_data := some txn })
              [Event.scored i text_score]
      else
        let amount_diff := pyAbs (inv_amount - txn_amount)
        if 60 < text_score ∧ (0 < amount_diff ∧ amount_diff ≤ inv_amount * (5 / 100)) then
          match judge { vendor := inv_vendor, number := inv_num,
                        invoice_amount := inv_amount,
                        description := txn_desc, txn_amount := txn_amount } with
          | .ok (some resp) =>
            if startsWithStr (upperStr (stripStr resp)) ("YES") then
              .halt (.ok { status := "AI Reconciled (With Fees)",
                           transaction_id := some txn.id,
                           confidence := some "90%",
                           reason := stripStr resp,
                           matched_data := some txn })
                    [Event.scored i text_score, Event.judged i]
            else .next [Event.scored i text_score, Event.judged i]
          | _ => .next [Event.scored i text_score, Event.judged i]
        else .next [Event.scored i text_score]

/-- The scan over the transactions, in their given order, with a running
loop index.  Returns the result of the function together with the trace
of scorer and judgment-service events. -/
def reconcileLoop (score : Score) (judge : Judge) (inv_vendor inv_num : String)
    (inv_amount : ℚ) (i : Nat) :
    List Transaction → Except PyErr MatchDecision × List Event
  | [] =>
    (Except.ok { status := "Pending",
                 reason := "No matching payment found in bank transactions." }, [])
  | txn :: rest =>
    match step score judge inv_vendor inv_num inv_amount i txn with
    | .halt r evs => (r, evs)
    | .next evs =>
      let r := reconcileLoop score judge inv_vendor inv_num inv_amount (i + 1) rest
      (r.1, evs ++ r.2)

/-- str(invoice_data.get("vendor_name", "")).lower() -/
def Invoice.vendorKey (inv : Invoice) : String :=
  lowerStr (inv.vendor_name.getD (""))

/-- str(invoice_data.get("invoice_number", "")).lower() -/
def Invoice.numberKey (inv : Invoice) : String :=
  lowerStr (inv.invoice_number.getD (""))

/-- float(invoice_data.get("total_amount", 0.0)) -/
def invAmount (inv : Invoice) : Except PyErr ℚ :=
  pyFloat (inv.total_amount.getD (Val.vnum 0))

/-- reconcile_invoice_with_ai: empty-DataFrame check, invoice field
normalisation, then the scan.  Result plus trace of events. -/
def reconcile_invoice_with_ai (score : Score) (judge : Judge)
    (invoice_data : Invoice) (transactions : List Transaction) :
    Except PyErr MatchDecision × List Event :=
  if transactions.isEmpty then
    (Except.ok { status := "Pending",
                 reason := "No bank transactions available to match." }, [])
  else
    match invAmount invoice_data with
    | .error e => (Except.error e, [])
    | .ok inv_amount =>
      reconcileLoop score judge invoice_data.vendorKey invoice_data.numberKey
        inv_amount 0 transactions

/-! Predicates used to state the claims, each mirroring one guard of the
loop body. -/

/-- The debit filter: str(txn['type']).lower() == 'debit'. -/
def isDebit (t : Transaction) : Bool := lowerStr t.type == "debit"

/-- The exact-match rule fires on this candidate: debit, parseable amount
equal to the invoice amount, text_score strictly above 50. -/
def firesExact (score : Score) (v n : String) (A : ℚ) (t : Transaction) : Bool :=
  isDebit t &&
    match pyFloat t.amount with
    | .ok q => decide (A = q) && decide (50 < textScore score v n (lowerStr t.description))
    | .error _ => false

/-- The candidate reaches the judgment service: debit, parseable amount,
text_score strictly above 60, amount gap positive and at most five percent
of the invoice amount. -/
def feeCandidate (score : Score) (v n : String) (A : ℚ) (t : Transaction) : Bool :=
  isDebit t &&
    match pyFloat t.amount with
    | .ok q =>
      decide (60 < textScore score v n (lowerStr t.description)) &&
      decide (0 < pyAbs (A - q)) && decide (pyAbs (A - q) ≤ A * (5 / 100))
    | .error _ => false

/-- The judgment service, asked about this pair, accepts: the call
succeeds, the response has text, and its stripped uppercase form starts
with YES. -/
def judgeAccepted (judge : Judge) (v n : String) (A : ℚ) (desc : String) (q : ℚ) : Bool :=
  match judge { vendor := v, number := n, invoice_amount := A,
                description := desc, txn_amount := q } with
  | .ok (some resp) => startsWithStr (upperStr (stripStr resp)) ("YES")
  | _ => false

/-- judgeAccepted lifted to a transaction row. -/
def judgeAcceptsTxn (judge : Judge) (v n : String) (A : ℚ) (t : Transaction) : Bool :=
  match pyFloat t.amount with
  | .ok q => judgeAccepted judge v n A (lowerStr t.description) q
  | .error _ => false

/-- The scan passes over this candidate without returning and without
raising: not a debit, or a well-formed amount on which neither rule ends
the scan. -/
def passesBy (score : Score) (judge : Judge) (v n : String) (A : ℚ) (t : Transaction) : Bool :=
  !(isDebit t) ||
  ((pyFloat t.amount).toOption.isSome && !(firesExact score v n A t) &&
   !(feeCandidate score v n A t && judgeAcceptsTxn judge v n A t))

/-- Shape invariant of every decision the function can return. -/
def GoodDecision (d : MatchDecision) : Prop :=
  (d.transaction_id ≠ none ↔
    d.status = "Exact Match" ∨ d.status = "AI Reconciled (With Fees)") ∧
  (d.status = "Pending" →
    d.transaction_id = none ∧ d.confidence = none ∧ d.matched_data = none ∧
    d.reason ≠ "")

/-! Concrete scorers, judges, invoices and transactions used to
instantiate theorems with hypotheses and to exhibit counterexamples. -/

/-- Constant scorer stub: every comparison scores 70. -/
def scoreStub : Score := fun _ _ => 70

/-- Judgment-service stub that always accepts. -/
def judgeYes : Judge := fun _ => Except.ok (some "YES - likely a processing fee.")

/-- Judgment-service stub that always declines. -/
def judgeNo : Judge := fun _ => Except.ok (some "NO - unrelated transaction.")

/-- Judgment-service stub that always raises. -/
def judgeDown : Judge := fun _ => Except.error ()

def acmeInvoice : Invoice :=
  { vendor_name := some "Acme", invoice_number := some "INV-1",
    total_amount := some (Val.vnum 1000) }

/-- Debit of 975 against a 1000 invoice: a fee-tolerance candidate. -/
def feeTxn : Transaction :=
  { id := 1, description := "ACME pay", amount := Val.vnum 975,
    type := "Debit", status := "Unreconciled" }

/-- Debit of exactly 1000: an exact-match candidate. -/
def exactTxn : Transaction :=
  { id := 2, description := "acme pay", amount := Val.vnum 1000,
    type := "debit", status := "Unreconciled" }

/-- Malformed row: amount cell does not convert to float. -/
def badTxn : Transaction :=
  { id := 3, description := "acme pay", amount := Val.vstr "abc",
    type := "debit", status := "Unreconciled" }

/-- Credit row: skipped by the debit filter. -/
def creditTxn : Transaction :=
  { id := 4, description := "acme pay", amount := Val.vnum 1000,
    type := "credit", status := "Unreconciled" }

/-- Debit of 800 against a 1000 invoice: twenty percent gap, outside the
fee range. -/
def gapTxn : Transaction :=
  { id := 5, description := "acme pay", amount := Val.vnum 800,
    type := "debit", status := "Unreconciled" }

/-- Rewrite a transaction's status field, keeping everything else. -/
def statusSet (g : Transaction → String) (t : Transaction) : Transaction :=
  { t with status := g t }

/-- Erase the status field of a snapshot. -/
def scrubTxn (t : Transaction) : Transaction := { t with status := "" }

/-- Erase the status field inside the matched snapshot of a decision. -/
def scrubDecision (d : MatchDecision) : MatchDecision :=
  { d with matched_data := d.matched_data.map scrubTxn }

/-- Push a status rewrite into the snapshot of a decision. -/
def decisionStatusMap (g : Transaction → String) (d : MatchDecision) : MatchDecision :=
  { d with matched_data := d.matched_data.map (statusSet g) }

/-- Relabel a step outcome's decision snapshot. -/
def mapStepOut (g : Transaction → String) : StepOut → StepOut
  | .halt (.ok d) evs => .halt (.ok (decisionStatusMap g d)) evs
  | out => out

/-! Lemmas about one step of the scan and about the whole loop. -/

lemma isDebit_eq_true {t : Transaction} (h : isDebit t = true) :
    lowerStr t.type = "debit" := by
  simpa [isDebit] using h

lemma isDebit_eq_false {t : Transaction} (h : isDebit t = false) :
    lowerStr t.type ≠ "debit" := by
  simpa [isDebit] using h

lemma step_not_debit {score : Score} {judge : Judge} {v n : String} {A : ℚ}
    {i : Nat} {t : Transaction} (h : isDebit t = false) :
    step score judge v n A i t = .next [] := by
  unfold step
  rw [if_pos (isDebit_eq_false h)]

lemma step_raises {score : Score} {judge : Judge} {v n : String} {A : ℚ}
    {i : Nat} {t : Transaction} {e : PyErr}
    (h : isDebit t = true) (he : pyFloat t.amount = .error e) :
    step score judge v n A i t = .halt (.error e) [] := by
  unfold step
  rw [if_neg (not_not_intro (isDebit_eq_true h))]
  simp only [he]

lemma firesExact_elim {score : Score} {v n : String} {A : ℚ} {t : Transaction}
    (h : firesExact score v n A t = true) :
    isDebit t = true ∧ ∃ q, pyFloat t.amount = .ok q ∧ A = q ∧
      50 < textScore score v n (lowerStr t.description) := by
  unfold firesExact at h
  rw [Bool.and_eq_true] at h
  obtain ⟨hd, hm⟩ := h
  refine ⟨hd, ?_⟩
  cases hq : pyFloat t.amount with
  | ok q =>
    rw [hq] at hm
    simp only [Bool.and_eq_true, decide_eq_true_eq] at hm
    exact ⟨q, rfl, hm.1, hm.2⟩
  | error e =>
    rw [hq] at hm
    simp at hm

lemma step_exact {score : Score} {judge : Judge} {v n : String} {A : ℚ}
    {i : Nat} {t : Transaction} (h : firesExact score v n A t = true) :
    step score judge v n A i t =
      .halt (.ok { status := "Exact Match", transaction_id := some t.id,
                   confidence := some "100%",
                   reason := "Exact amount and strong text match found.",
                   matched_data := some t })
            [Event.scored i (textScore score v n (lowerStr t.description))] := by
  obtain ⟨hd, q, hq, hA, hts⟩ := firesExact_elim h
  unfold step
  rw [if_neg (not_not_intro (isDebit_eq_true hd))]
  simp only [hq]
  rw [if_pos ⟨hA, hts⟩]

lemma step_ai_accepted {score : Score} {judge : Judge} {v n : String} {A : ℚ}
    {i : Nat} {t : Transaction} {q : ℚ} {resp : String}
    (hd : isDebit t = true) (hq : pyFloat t.amount = .ok q)
    (hts : 60 < textScore score v n (lowerStr t.description))
    (h0 : 0 < pyAbs (A - q)) (h5 : pyAbs (A - q) ≤ A * (5 / 100))
    (hj : judge { vendor := v, number := n, invoice_amount := A,
                  description := lowerStr t.description, txn_amount := q } =
          .ok (some resp))
    (hy : startsWithStr (upperStr (stripStr resp)) ("YES") = true) :
    step score judge v n A i t =
      .halt (.ok { status := "AI Reconciled (With Fees)",
                   transaction_id := some t.id,
                   confidence := some "90%", reason := stripStr resp,
                   matched_data := some t })
            [Event.scored i (textScore score v n (lowerStr t.description)),
             Event.judged i] := by
  unfold step
  rw [if_neg (not_not_intro (isDebit_eq_true hd))]
  simp only [hq]
  rw [if_neg ?hne, if_pos ⟨hts, h0, h5⟩]
  case hne =>
    rintro ⟨hA, -⟩
    subst hA
    simp [pyAbs] at h0
  simp only [hj]
  rw [if_pos hy]

lemma step_fee_not_accepted {score : Score} {judge : Judge} {v n : String}
    {A : ℚ} {i : Nat} {t : Transaction} {q : ℚ}
    (hd : isDebit t = true) (hq : pyFloat t.amount = .ok q)
    (hts : 60 < textScore score v n (lowerStr t.description))
    (h0 : 0 < pyAbs (A - q)) (h5 : pyAbs (A - q) ≤ A * (5 / 100))
    (hja : judgeAccepted judge v n A (lowerStr t.description) q = false) :
    step score judge v n A i t =
      .next [Event.scored i (textScore score v n (lowerStr t.description)),
             Event.judged i] := by
  unfold step
  rw [if_neg (not_not_intro (isDebit_eq_true hd))]
  simp only [hq]
  rw [if_neg ?hne, if_pos ⟨hts, h0, h5⟩]
  case hne =>
    rintro ⟨hA, -⟩
    subst hA
    simp [pyAbs] at h0
  unfold judgeAccepted at hja
  cases hj : judge { vendor := v, number := n, invoice_amount := A,
                     description := lowerStr t.description, txn_amount := q } with
  | error u => simp only [hj]
  | ok o =>
    cases o with
    | none => simp only [hj]
    | some resp =>
      rw [hj] at hja
      have hja' : startsWithStr (upperStr (stripStr resp)) ("YES") = false := by
        simpa using hja
      simp only [hj]
      rw [if_neg (by simp [hja'])]

lemma step_of_passes {score : Score} {judge : Judge} {v n : String} {A : ℚ}
    {t : Transaction} (i : Nat)
    (h : passesBy score judge v n A t = true) :
    ∃ evs, step score judge v n A i t = .next evs ∧ ∀ e ∈ evs, e.idx = i := by
  unfold passesBy at h
  rw [Bool.or_eq_true] at h
  by_cases hd : isDebit t
  case neg =>
    exact ⟨[], step_not_debit (by simpa using hd), by simp⟩
  case pos =>
    rcases h with h | h
    · rw [hd] at h; simp at h
    · rw [Bool.and_eq_true, Bool.and_eq_true] at h
      obtain ⟨⟨hsome, hnex⟩, hnai⟩ := h
      cases hq : pyFloat t.amount with
      | error e => rw [hq] at hsome; simp [Except.toOption] at hsome
      | ok q =>
        rw [Bool.not_eq_true'] at hnex hnai
        unfold step
        rw [if_neg (not_not_intro (isDebit_eq_true hd))]
        simp only [hq]
        rw [if_neg ?hnexact]
        case hnexact =>
          intro hc
          unfold firesExact at hnex
          rw [hd, hq] at hnex
          simp only [Bool.true_and, Bool.and_eq_false_iff, decide_eq_false_iff_not] at hnex
          rcases hnex with hc1 | hc2
          · exact hc1 hc.1
          · exact hc2 hc.2
        by_cases hfee : 60 < textScore score v n (lowerStr t.description) ∧
            0 < pyAbs (A - q) ∧ pyAbs (A - q) ≤ A * (5 / 100)
        · have hfc : feeCandidate score v n A t = true := by
            unfold feeCandidate
            rw [hd, hq]
            simp only [Bool.true_and, Bool.and_eq_true, decide_eq_true_eq]
            exact ⟨⟨hfee.1, hfee.2.1⟩, hfee.2.2⟩
          rw [hfc, Bool.true_and] at hnai
          unfold judgeAcceptsTxn at hnai
          rw [hq] at hnai
          have hnai2 : judgeAccepted judge v n A (lowerStr t.description) q = false := hnai
          rw [if_pos hfee]
          unfold judgeAccepted at hnai2
          cases hj : judge { vendor := v, number := n, invoice_amount := A,
                             description := lowerStr t.description, txn_amount := q } with
          | error u =>
            simp only [hj]
            exact ⟨_, rfl, by simp [Event.idx]⟩
          | ok o =>
            cases o with
            | none =>
              simp only [hj]
              exact ⟨_, rfl, by simp [Event.idx]⟩
            | some resp =>
              rw [hj] at hnai2
              have hja' : startsWithStr (upperStr (stripStr resp)) ("YES") = false := by
                simpa using hnai2
              simp only [hj]
              rw [if_neg (by simp [hja'])]
              exact ⟨_, rfl, by simp [Event.idx]⟩
        · rw [if_neg hfee]
          exact ⟨_, rfl, by simp [Event.idx]⟩

lemma step_good {score : Score} {judge : Judge} {v n : String} {A : ℚ}
    {i : Nat} {t : Transaction} {d : MatchDecision} {evs : List Event}
    (hs : step score judge v n A i t = .halt (.ok d) evs) :
    GoodDecision d := by
  unfold step at hs
  split at hs
  · exact absurd hs (by simp)
  · dsimp only [] at hs
    split at hs
    case h_1 e he => exact absurd hs (by simp)
    case h_2 q hq =>
      split at hs
      · rw [StepOut.halt.injEq, Except.ok.injEq] at hs
        obtain ⟨hd2, -⟩ := hs
        subst hd2
        simp [GoodDecision]
      · split at hs
        · split at hs
          · split at hs
            · rw [StepOut.halt.injEq, Except.ok.injEq] at hs
              obtain ⟨hd2, -⟩ := hs
              subst hd2
              simp [GoodDecision]
            · exact absurd hs (by simp)
          · exact absurd hs (by simp)
        · exact absurd hs (by simp)

lemma judged_mem_step {score : Score} {judge : Judge} {v n : String} {A : ℚ}
    {i : Nat} {t : Transaction} {out : StepOut} {j : Nat}
    (hs : step score judge v n A i t = out)
    (hm : Event.judged j ∈ out.events) :
    j = i ∧ isDebit t = true ∧ ∃ q, pyFloat t.amount = .ok q ∧
      60 < textScore score v n (lowerStr t.description) ∧
      0 < pyAbs (A - q) ∧ pyAbs (A - q) ≤ A * (5 / 100) := by
  subst hs
  unfold step at hm
  split at hm
  case isTrue hnd => simp [StepOut.events] at hm
  case isFalse hnd =>
    have hd : isDebit t = true := by
      simp only [isDebit, beq_iff_eq]
      exact not_not.mp hnd
    dsimp only [] at hm
    split at hm
    case h_1 e he => simp [StepOut.events] at hm
    case h_2 q hq =>
      split at hm
      · simp [StepOut.events] at hm
      · split at hm
        case isTrue hfee =>
          refine ⟨?_, hd, q, hq, hfee.1, hfee.2.1, hfee.2.2⟩
          split at hm
          case h_1 resp hj =>
            split at hm
            · simpa [StepOut.events] using hm
            · simpa [StepOut.events] using hm
          case h_2 x hx =>
            simpa [StepOut.events] using hm
        case isFalse hfee =>
          simp [StepOut.events] at hm

lemma loop_passes {score : Score} {judge : Judge} {v n : String} {A : ℚ}
    (pre rest : List Transaction) (i : Nat)
    (h : ∀ t ∈ pre, passesBy score judge v n A t = true) :
    (reconcileLoop score judge v n A i (pre ++ rest)).1 =
      (reconcileLoop score judge v n A (i + pre.length) rest).1 ∧
    ∃ evs, (reconcileLoop score judge v n A i (pre ++ rest)).2 =
      evs ++ (reconcileLoop score judge v n A (i + pre.length) rest).2 ∧
      ∀ e ∈ evs, i ≤ e.idx ∧ e.idx < i + pre.length := by
  induction pre generalizing i with
  | nil =>
    refine ⟨by simp, [], by simp, by simp⟩
  | cons t pre ih =>
    obtain ⟨evs₀, hstep, hidx⟩ := step_of_passes i (h t (by simp))
    obtain ⟨ih1, evs₁, ih2, ih3⟩ := ih (i + 1) (fun u hu => h u (by simp [hu]))
    have hlen : i + 1 + pre.length = i + (t :: pre).length := by
      simp [List.length_cons]; omega
    constructor
    · show (reconcileLoop score judge v n A i (t :: (pre ++ rest))).1 = _
      simp only [reconcileLoop, hstep]
      rw [ih1, hlen]
    · refine ⟨evs₀ ++ evs₁, ?_, ?_⟩
      · show (reconcileLoop score judge v n A i (t :: (pre ++ rest))).2 = _
        simp only [reconcileLoop, hstep]
        rw [ih2, hlen]
        simp [List.append_assoc]
      · intro e he
        rw [List.mem_append] at he
        rcases he with he | he
        · have := hidx e he
          simp [List.length_cons]
          omega
        · have := ih3 e he
          simp [List.length_cons]
          omega

lemma loop_judged {score : Score} {judge : Judge} {v n : String} {A : ℚ}
    {j : Nat} (i : Nat) (L : List Transaction)
    (hm : Event.judged j ∈ (reconcileLoop score judge v n A i L).2) :
    ∃ k t, L[k]? = some t ∧ j = i + k ∧ isDebit t = true ∧
      ∃ q, pyFloat t.amount = .ok q ∧
        60 < textScore score v n (lowerStr t.description) ∧
        0 < pyAbs (A - q) ∧ pyAbs (A - q) ≤ A * (5 / 100) := by
  induction L generalizing i with
  | nil => simp [reconcileLoop] at hm
  | cons t rest ih =>
    cases hs : step score judge v n A i t with
    | halt r evs =>
      simp only [reconcileLoop, hs] at hm
      obtain ⟨hj, hrest⟩ := judged_mem_step hs (by simpa [StepOut.events] using hm)
      exact ⟨0, t, by simp, by omega, hrest⟩
    | next evs =>
      simp only [reconcileLoop, hs] at hm
      rw [List.mem_append] at hm
      rcases hm with hm | hm
      · obtain ⟨hj, hrest⟩ := judged_mem_step hs (by simpa [StepOut.events] using hm)
        exact ⟨0, t, by simp, by omega, hrest⟩
      · obtain ⟨k, u, hget, hj, hrest⟩ := ih (i + 1) hm
        refine ⟨k + 1, u, by simpa using hget, by omega, hrest⟩

lemma loop_good {score : Score} {judge : Judge} {v n : String} {A : ℚ}
    {d : MatchDecision} (i : Nat) (L : List Transaction)
    (h : (reconcileLoop score judge v n A i L).1 = .ok d) : GoodDecision d := by
  induction L generalizing i with
  | nil =>
    simp only [reconcileLoop, Except.ok.injEq] at h
    subst h
    simp [GoodDecision]
  | cons t rest ih =>
    cases hs : step score judge v n A i t with
    | halt r evs =>
      simp only [reconcileLoop, hs] at h
      cases r with
      | ok d2 =>
        obtain rfl : d2 = d := by simpa using h
        exact step_good hs
      | error e => simp at h
    | next evs =>
      simp only [reconcileLoop, hs] at h
      exact ih (i + 1) h

lemma step_statusSet {score : Score} {judge : Judge} {v n : String} {A : ℚ}
    {i : Nat} {t : Transaction} (g : Transaction → String) :
    step score judge v n A i (statusSet g t) =
      mapStepOut g (step score judge v n A i t) := by
  unfold step
  dsimp only [statusSet]
  by_cases h1 : lowerStr t.type ≠ "debit"
  · rw [if_pos h1, if_pos h1]
    rfl
  · rw [if_neg h1, if_neg h1]
    cases hq : pyFloat t.amount with
    | error e =>
      simp only [hq]
      rfl
    | ok q =>
      simp only [hq]
      by_cases h2 : A = q ∧ 50 < textScore score v n (lowerStr t.description)
      · rw [if_pos h2, if_pos h2]
        simp [mapStepOut, decisionStatusMap, statusSet]
      · rw [if_neg h2, if_neg h2]
        by_cases h3 : 60 < textScore score v n (lowerStr t.description) ∧
            0 < pyAbs (A - q) ∧ pyAbs (A - q) ≤ A * (5 / 100)
        · rw [if_pos h3, if_pos h3]
          cases hj : judge { vendor := v, number := n, invoice_amount := A,
                             description := lowerStr t.description, txn_amount := q } with
          | error u =>
            simp only [hj]
            rfl
          | ok o =>
            cases o with
            | none =>
              simp only [hj]
              rfl
            | some resp =>
              simp only [hj]
              by_cases h4 : startsWithStr (upperStr (stripStr resp)) ("YES") = true
              · rw [if_pos h4, if_pos h4]
                simp [mapStepOut, decisionStatusMap, statusSet]
              · rw [if_neg h4, if_neg h4]
                rfl
        · rw [if_neg h3, if_neg h3]
          rfl

lemma loop_statusSet {score : Score} {judge : Judge} {v n : String} {A : ℚ}
    (g : Transaction → String) (i : Nat) (L : List Transaction) :
    reconcileLoop score judge v n A i (L.map (statusSet g)) =
      ((reconcileLoop score judge v n A i L).1.map (decisionStatusMap g),
       (reconcileLoop score judge v n A i L).2) := by
  induction L generalizing i with
  | nil =>
    simp [reconcileLoop, Except.map, decisionStatusMap]
  | cons t rest ih =>
    rw [List.map_cons]
    cases hs : step score judge v n A i t with
    | halt r evs =>
      cases r with
      | ok d =>
        simp only [reconcileLoop, step_statusSet g, hs, mapStepOut, Except.map]
      | error e =>
        simp only [reconcileLoop, step_statusSet g, hs, mapStepOut, Except.map]
    | next evs =>
      simp only [reconcileLoop, step_statusSet g, hs, mapStepOut, ih]

lemma scrub_statusMap (g : Transaction → String) (d : MatchDecision) :
    scrubDecision (decisionStatusMap g d) = scrubDecision d := by
  cases d with
  | mk st id conf reason md =>
    cases md with
    | none => rfl
    | some t => cases t; rfl

/-! The claims. -/

/-- C1 counterexample: with the 1000 invoice, a qualifying exact-match
debit (amount 1000, text_score 70 > 50) is present as the SECOND
transaction, yet the function does not return ExactMatch for it: the
first transaction (a 975 debit within the fee range) is accepted by the
judgment service first, so the result is "AI Reconciled (With Fees)"
carrying id 1, not "Exact Match" carrying id 2, refuting the claim as
universally stated. -/
theorem c1_counterexample :
    (isDebit exactTxn = true ∧
     invAmount acmeInvoice = Except.ok 1000 ∧
     pyFloat exactTxn.amount = Except.ok 1000 ∧
     50 < textScore scoreStub acmeInvoice.vendorKey acmeInvoice.numberKey
       (lowerStr exactTxn.description)) ∧
    reconcile_invoice_with_ai scoreStub judgeYes acmeInvoice [feeTxn, exactTxn] =
      (Except.ok { status := "AI Reconciled (With Fees)",
                   transaction_id := some 1,
                   confidence := some "90%",
                   reason := "YES - likely a processing fee.",
                   matched_data := some feeTxn },
       [Event.scored 0 70, Event.judged 0]) ∧
    "AI Reconciled (With Fees)" ≠ "Exact Match" ∧
    some 1 ≠ some exactTxn.id := by decide

/-- C1 (amended): if every transaction before t merely passes by the scan
(it is not a debit, or its amount parses and neither the exact-match rule
nor an accepted fee-tolerance judgment ends the scan there), and the
exact-match rule fires on t (debit, parsed amount equal to the parsed
invoice amount, text_score > 50), then the function returns the
ExactMatch decision for t - status "Exact Match", confidence "100%",
t's id and a full snapshot of t - and no later transaction is examined or
scored: every trace event concerns a position at most t's. -/
theorem c1_first_exact_wins {score : Score} {judge : Judge} {inv : Invoice}
    {A : ℚ} {pre post : List Transaction} {t : Transaction}
    (hA : invAmount inv = Except.ok A)
    (hpre : ∀ u ∈ pre, passesBy score judge inv.vendorKey inv.numberKey A u = true)
    (hfire : firesExact score inv.vendorKey inv.numberKey A t = true) :
    ∃ evs,
      reconcile_invoice_with_ai score judge inv (pre ++ t :: post) =
        (Except.ok { status := "Exact Match", transaction_id := some t.id,
                     confidence := some "100%",
                     reason := "Exact amount and strong text match found.",
                     matched_data := some t }, evs) ∧
      ∀ e ∈ evs, e.idx ≤ pre.length := by
  have hfront : reconcileLoop score judge inv.vendorKey inv.numberKey A
      pre.length (t :: post) =
      (Except.ok { status := "Exact Match", transaction_id := some t.id,
                   confidence := some "100%",
                   reason := "Exact amount and strong text match found.",
                   matched_data := some t },
       [Event.scored pre.length
          (textScore score inv.vendorKey inv.numberKey (lowerStr t.description))]) := by
    simp only [reconcileLoop, step_exact hfire]
  obtain ⟨h1, evs0, h2, h3⟩ := loop_passes pre (t :: post) 0 hpre
  rw [Nat.zero_add] at h1 h2 h3
  refine ⟨evs0 ++ [Event.scored pre.length
      (textScore score inv.vendorKey inv.numberKey (lowerStr t.description))],
    ?_, ?_⟩
  · unfold reconcile_invoice_with_ai
    rw [if_neg (by cases pre <;> simp)]
    simp only [hA]
    rw [Prod.ext_iff]
    constructor
    · rw [h1, hfront]
    · rw [h2, hfront]
  · intro e he
    rw [List.mem_append] at he
    rcases he with he | he
    · exact le_of_lt (h3 e he).2
    · simp only [List.mem_singleton] at he
      subst he
      simp [Event.idx]

/-- C1 witness: the amended theorem applied with a skipped credit row in
front of the exact-match debit. -/
theorem c1_witness :
    ∃ evs,
      reconcile_invoice_with_ai scoreStub judgeNo acmeInvoice
        ([creditTxn] ++ exactTxn :: [feeTxn]) =
        (Except.ok { status := "Exact Match",
                     transaction_id := some exactTxn.id,
                     confidence := some "100%",
                     reason := "Exact amount and strong text match found.",
                     matched_data := some exactTxn }, evs) ∧
      ∀ e ∈ evs, e.idx ≤ [creditTxn].length :=
  c1_first_exact_wins (A := 1000) (by decide) (by decide) (by decide)

/-- C2: when the scan examines a debit candidate whose amount parses to q,
whose text_score exceeds 60, whose amount gap is positive and at most five
percent of the invoice amount, and the judgment service returns a response
whose stripped uppercase text starts with YES, the function immediately
returns the AI-reconciled decision (status "AI Reconciled (With Fees)",
confidence "90%", reason the stripped response, the candidate's id and a
full snapshot), without touching the remaining transactions. -/
theorem c2_fee_tolerant_accepted {score : Score} {judge : Judge} {v n : String}
    {A q : ℚ} {i : Nat} {t : Transaction} {rest : List Transaction} {resp : String}
    (hd : isDebit t = true) (hq : pyFloat t.amount = Except.ok q)
    (hts : 60 < textScore score v n (lowerStr t.description))
    (h0 : 0 < pyAbs (A - q)) (h5 : pyAbs (A - q) ≤ A * (5 / 100))
    (hj : judge { vendor := v, number := n, invoice_amount := A,
                  description := lowerStr t.description, txn_amount := q } =
          Except.ok (some resp))
    (hy : startsWithStr (upperStr (stripStr resp)) ("YES") = true) :
    reconcileLoop score judge v n A i (t :: rest) =
      (Except.ok { status := "AI Reconciled (With Fees)",
                   transaction_id := some t.id,
                   confidence := some "90%", reason := stripStr resp,
                   matched_data := some t },
       [Event.scored i (textScore score v n (lowerStr t.description)),
        Event.judged i]) := by
  simp only [reconcileLoop, step_ai_accepted hd hq hts h0 h5 hj hy]

/-- C2 witness: the theorem applied to the 1000-invoice and the 975 debit
with an accepting judgment stub. -/
theorem c2_witness :
    reconcileLoop scoreStub judgeYes "acme" "inv-1" 1000 0 [feeTxn, exactTxn] =
      (Except.ok { status := "AI Reconciled (With Fees)",
                   transaction_id := some feeTxn.id,
                   confidence := some "90%",
                   reason := stripStr "YES - likely a processing fee.",
                   matched_data := some feeTxn },
       [Event.scored 0 (textScore scoreStub "acme" "inv-1" (lowerStr feeTxn.description)),
        Event.judged 0]) :=
  c2_fee_tolerant_accepted (q := 975) (by decide) (by decide) (by decide)
    (by decide) (by decide) (by decide) (by decide)

/-- C3: (1) whenever the trace records a judgment-service call for
position j, the transaction at position j is a debit whose amount parses
to some q, the exact-match rule did not fire on it, its text_score is
strictly above 60, and its amount gap satisfies 0 < |A - q| <= 0.05 * A.
In particular (2) when no transaction is a debit, and (3) when every
debit amount's gap exceeds the five percent bound, the judgment service
is never invoked: no judged event occurs in the trace. -/
theorem c3_judge_preconditions :
    (∀ (score : Score) (judge : Judge) (inv : Invoice) (txns : List Transaction)
       (A : ℚ) (j : Nat),
       invAmount inv = Except.ok A →
       Event.judged j ∈ (reconcile_invoice_with_ai score judge inv txns).2 →
       ∃ t, txns[j]? = some t ∧ isDebit t = true ∧
         firesExact score inv.vendorKey inv.numberKey A t = false ∧
         ∃ q, pyFloat t.amount = Except.ok q ∧
           60 < textScore score inv.vendorKey inv.numberKey (lowerStr t.description) ∧
           0 < pyAbs (A - q) ∧ pyAbs (A - q) ≤ A * (5 / 100)) ∧
    (∀ (score : Score) (judge : Judge) (inv : Invoice) (txns : List Transaction)
       (A : ℚ) (j : Nat),
       invAmount inv = Except.ok A →
       (∀ t ∈ txns, isDebit t = false) →
       Event.judged j ∉ (reconcile_invoice_with_ai score judge inv txns).2) ∧
    (∀ (score : Score) (judge : Judge) (inv : Invoice) (txns : List Transaction)
       (A : ℚ) (j : Nat),
       invAmount inv = Except.ok A →
       (∀ t ∈ txns, ∀ q, pyFloat t.amount = Except.ok q →
         ¬pyAbs (A - q) ≤ A * (5 / 100)) →
       Event.judged j ∉ (reconcile_invoice_with_ai score judge inv txns).2) := by
  have main : ∀ (score : Score) (judge : Judge) (inv : Invoice)
      (txns : List Transaction) (A : ℚ) (j : Nat),
      invAmount inv = Except.ok A →
      Event.judged j ∈ (reconcile_invoice_with_ai score judge inv txns).2 →
      ∃ t, txns[j]? = some t ∧ isDebit t = true ∧
        firesExact score inv.vendorKey inv.numberKey A t = false ∧
        ∃ q, pyFloat t.amount = Except.ok q ∧
          60 < textScore score inv.vendorKey inv.numberKey (lowerStr t.description) ∧
          0 < pyAbs (A - q) ∧ pyAbs (A - q) ≤ A * (5 / 100) := by
    intro score judge inv txns A j hA hm
    unfold reconcile_invoice_with_ai at hm
    by_cases hempty : txns.isEmpty
    · rw [if_pos hempty] at hm
      simp at hm
    · rw [if_neg hempty] at hm
      simp only [hA] at hm
      obtain ⟨k, t, hget, hjk, hd, q, hq, hts, h0, h5⟩ := loop_judged 0 txns hm
      rw [Nat.zero_add] at hjk
      subst hjk
      refine ⟨t, hget, hd, ?_, q, hq, hts, h0, h5⟩
      have hne : A ≠ q := by
        intro hAq
        subst hAq
        simp [pyAbs] at h0
      unfold firesExact
      rw [hd, hq]
      simp [hne]
  refine ⟨main, ?_, ?_⟩
  · intro score judge inv txns A j hA hnod hm
    obtain ⟨t, hget, hd, -⟩ := main score judge inv txns A j hA hm
    have hmem : t ∈ txns := List.getElem?_mem hget
    rw [hnod t hmem] at hd
    exact absurd hd (by simp)
  · intro score judge inv txns A j hA hgap hm
    obtain ⟨t, hget, hd, hfe, q, hq, hts, h0, h5⟩ := main score judge inv txns A j hA hm
    exact hgap t (List.getElem?_mem hget) q hq h5

/-- C3 witness: all three parts at concrete inputs: the 975 debit with a
declining stub produces a judged event at position 0 whose preconditions
the theorem yields; an all-credit ledger and an out-of-range debit are
never sent to the judgment service. -/
theorem c3_witness :
    (∃ t, [feeTxn, exactTxn][0]? = some t ∧ isDebit t = true ∧
      firesExact scoreStub acmeInvoice.vendorKey acmeInvoice.numberKey 1000 t = false ∧
      ∃ q, pyFloat t.amount = Except.ok q ∧
        60 < textScore scoreStub acmeInvoice.vendorKey acmeInvoice.numberKey
          (lowerStr t.description) ∧
        0 < pyAbs (1000 - q) ∧ pyAbs (1000 - q) ≤ 1000 * (5 / 100)) ∧
    Event.judged 0 ∉
      (reconcile_invoice_with_ai scoreStub judgeYes acmeInvoice [creditTxn]).2 ∧
    Event.judged 0 ∉
      (reconcile_invoice_with_ai scoreStub judgeYes acmeInvoice [gapTxn]).2 :=
  ⟨c3_judge_preconditions.1 scoreStub judgeNo acmeInvoice [feeTxn, exactTxn] 1000 0
     (by decide) (by decide),
   c3_judge_preconditions.2.1 scoreStub judgeYes acmeInvoice [creditTxn] 1000 0
     (by decide) (by decide),
   c3_judge_preconditions.2.2 scoreStub judgeYes acmeInvoice [gapTxn] 1000 0
     (by decide)
     (by
       intro t ht q hq
       simp only [List.mem_singleton] at ht
       subst ht
       have hq2 : (800 : ℚ) = q := by simpa [gapTxn, pyFloat] using hq
       subst hq2
       decide)⟩

/-- C4: two parts.  (1) When the scan examines a candidate that reaches
the judgment service (debit, parsed amount, text_score above 60, gap in
the fee range) and the service does not accept - the response does not
start with YES after stripping and uppercasing, has no text, or the call
raises - the candidate is dropped: the scan's result is exactly the
result of scanning the remaining transactions (no match for this
candidate, no error), with the candidate's scored and judged events
prepended.  (2) If the invoice amount parses and every transaction
passes by (in particular every fee-tolerance candidate fails this way
and none fires the exact rule), the function still returns a Pending
decision instead of raising. -/
theorem c4_fail_closed :
    (∀ (score : Score) (judge : Judge) (v n : String) (A q : ℚ) (i : Nat)
       (t : Transaction) (rest : List Transaction),
       isDebit t = true → pyFloat t.amount = Except.ok q →
       60 < textScore score v n (lowerStr t.description) →
       0 < pyAbs (A - q) → pyAbs (A - q) ≤ A * (5 / 100) →
       judgeAccepted judge v n A (lowerStr t.description) q = false →
       reconcileLoop score judge v n A i (t :: rest) =
         ((reconcileLoop score judge v n A (i + 1) rest).1,
          Event.scored i (textScore score v n (lowerStr t.description)) ::
            Event.judged i :: (reconcileLoop score judge v n A (i + 1) rest).2)) ∧
    (∀ (score : Score) (judge : Judge) (inv : Invoice) (txns : List Transaction)
       (A : ℚ),
       invAmount inv = Except.ok A →
       (∀ t ∈ txns, passesBy score judge inv.vendorKey inv.numberKey A t = true) →
       ∃ d, (reconcile_invoice_with_ai score judge inv txns).1 = Except.ok d ∧
         d.status = "Pending") := by
  constructor
  · intro score judge v n A q i t rest hd hq hts h0 h5 hja
    simp only [reconcileLoop, step_fee_not_accepted hd hq hts h0 h5 hja,
      List.cons_append, List.nil_append]
  · intro score judge inv txns A hA hpass
    by_cases hempty : txns.isEmpty
    · refine ⟨{ status := "Pending",
                reason := "No bank transactions available to match." }, ?_, rfl⟩
      unfold reconcile_invoice_with_ai
      rw [if_pos hempty]
    · refine ⟨{ status := "Pending",
                reason := "No matching payment found in bank transactions." }, ?_, rfl⟩
      unfold reconcile_invoice_with_ai
      rw [if_neg hempty]
      simp only [hA]
      obtain ⟨h1, -⟩ := loop_passes txns [] 0 hpass
      have hnil : txns ++ [] = txns := by simp
      rw [hnil] at h1
      rw [h1]
      simp [reconcileLoop]

/-- C4 witness: part 1 at the 975 debit with a declining stub; part 2
with a judgment outage (every call raises) on a fee-tolerance candidate,
still Pending. -/
theorem c4_witness :
    (reconcileLoop scoreStub judgeNo "acme" "inv-1" 1000 0 [feeTxn] =
      ((reconcileLoop scoreStub judgeNo "acme" "inv-1" 1000 1 []).1,
       Event.scored 0 (textScore scoreStub "acme" "inv-1" (lowerStr feeTxn.description)) ::
         Event.judged 0 :: (reconcileLoop scoreStub judgeNo "acme" "inv-1" 1000 1 []).2)) ∧
    (∃ d, (reconcile_invoice_with_ai scoreStub judgeDown acmeInvoice [feeTxn, creditTxn]).1 =
        Except.ok d ∧ d.status = "Pending") :=
  ⟨c4_fail_closed.1 scoreStub judgeNo "acme" "inv-1" 1000 975 0 feeTxn []
     (by decide) (by decide) (by decide) (by decide) (by decide) (by decide),
   c4_fail_closed.2 scoreStub judgeDown acmeInvoice [feeTxn, creditTxn] 1000
     (by decide) (by decide)⟩

/-- C5 counterexample: an invoice whose total_amount is present but
unparseable ("N/A") is not coerced to 0.0; float("N/A") raises, the
ValueError propagates out of the function and no decision is returned,
contradicting the claim that a garbage amount never causes an exception. -/
theorem c5_counterexample :
    reconcile_invoice_with_ai scoreStub judgeYes
      { vendor_name := some "Acme", invoice_number := some "INV-1",
        total_amount := some (Val.vstr "N/A") } [exactTxn] =
      (Except.error PyErr.valueError, []) := by decide

/-- C5 (amended): a MISSING total_amount key is coerced to 0.0 (the
function behaves exactly as if the amount were the number 0.0 and
matching proceeds normally), but a PRESENT unparseable total_amount is
passed to float(), which raises ValueError; when the transaction list is
nonempty the error propagates and aborts reconciliation. -/
theorem c5_amount_default_and_garbage :
    (∀ (score : Score) (judge : Judge) (v num dd : Option String)
       (txns : List Transaction),
       reconcile_invoice_with_ai score judge
         { vendor_name := v, invoice_number := num,
           total_amount := none, due_date := dd } txns =
       reconcile_invoice_with_ai score judge
         { vendor_name := v, invoice_number := num,
           total_amount := some (Val.vnum 0), due_date := dd } txns) ∧
    (∀ (score : Score) (judge : Judge) (inv : Invoice) (s : String)
       (t : Transaction) (rest : List Transaction),
       inv.total_amount = some (Val.vstr s) →
       pyFloatOfString (stripStr s) = none →
       reconcile_invoice_with_ai score judge inv (t :: rest) =
         (Except.error PyErr.valueError, [])) := by
  constructor
  · intro score judge v num dd txns
    rfl
  · intro score judge inv s t rest htot hparse
    unfold reconcile_invoice_with_ai
    rw [if_neg (by simp)]
    unfold invAmount
    rw [htot]
    simp only [Option.getD_some]
    unfold pyFloat
    simp only [hparse]

/-- C5 witness: both parts of the amended claim at concrete inputs. -/
theorem c5_witness :
    (reconcile_invoice_with_ai scoreStub judgeNo
       { vendor_name := some "Acme", invoice_number := some "INV-1",
         total_amount := none, due_date := none } [exactTxn] =
     reconcile_invoice_with_ai scoreStub judgeNo
       { vendor_name := some "Acme", invoice_number := some "INV-1",
         total_amount := some (Val.vnum 0), due_date := none } [exactTxn]) ∧
    reconcile_invoice_with_ai scoreStub judgeNo
      { vendor_name := some "Acme", invoice_number := some "INV-1",
        total_amount := some (Val.vstr "N/A") } [exactTxn, feeTxn] =
      (Except.error PyErr.valueError, []) :=
  ⟨c5_amount_default_and_garbage.1 scoreStub judgeNo (some "Acme") (some "INV-1")
     none [exactTxn],
   c5_amount_default_and_garbage.2 scoreStub judgeNo _ "N/A" exactTxn [feeTxn]
     rfl (by decide)⟩

/-- C6 counterexample: a malformed row (amount "abc") does not get
skipped: the ValueError from float() propagates, the scan aborts, the
following exact-match transaction is never evaluated (empty trace) and no
MatchDecision is returned. -/
theorem c6_counterexample :
    reconcile_invoice_with_ai scoreStub judgeYes acmeInvoice [badTxn, exactTxn] =
      (Except.error PyErr.valueError, []) := by decide

/-- C6 (amended): a malformed debit row aborts the whole scan: the
conversion error propagates immediately, no event is recorded for the row
and the remaining transactions are never examined.  (Only
judgment-service failures are caught and skipped.) -/
theorem c6_malformed_row_aborts {score : Score} {judge : Judge} {v n : String}
    {A : ℚ} {i : Nat} {t : Transaction} {e : PyErr} {rest : List Transaction}
    (hd : isDebit t = true) (he : pyFloat t.amount = Except.error e) :
    reconcileLoop score judge v n A i (t :: rest) = (Except.error e, []) := by
  simp only [reconcileLoop, step_raises hd he]

/-- C6 witness: the amended theorem at the malformed row. -/
theorem c6_witness :
    reconcileLoop scoreStub judgeYes "acme" "inv-1" 1000 0 [badTxn, exactTxn] =
      (Except.error PyErr.valueError, []) :=
  c6_malformed_row_aborts (by decide) (by decide)

/-- C7: every decision the function returns satisfies the shape
invariant: it carries a transaction_id exactly when its status is
"Exact Match" or "AI Reconciled (With Fees)", and a Pending decision
carries no transaction_id, confidence or snapshot and has a nonempty
human-readable reason. -/
theorem c7_decision_invariant {score : Score} {judge : Judge} {inv : Invoice}
    {txns : List Transaction} {d : MatchDecision} {evs : List Event}
    (h : reconcile_invoice_with_ai score judge inv txns = (Except.ok d, evs)) :
    GoodDecision d := by
  unfold reconcile_invoice_with_ai at h
  by_cases hempty : txns.isEmpty
  · rw [if_pos hempty] at h
    simp only [Prod.mk.injEq, Except.ok.injEq] at h
    obtain ⟨rfl, -⟩ := h
    simp [GoodDecision]
  · rw [if_neg hempty] at h
    cases hA : invAmount inv with
    | error e =>
      rw [hA] at h
      have h2 : ((Except.error e : Except PyErr MatchDecision), ([] : List Event)) =
          (Except.ok d, evs) := h
      simp at h2
    | ok A =>
      rw [hA] at h
      have h2 : reconcileLoop score judge inv.vendorKey inv.numberKey A 0 txns =
          (Except.ok d, evs) := h
      exact loop_good 0 txns (by rw [h2])

/-- C7 witness: the invariant at the AI-reconciled decision produced by
the 975 debit with an accepting stub. -/
theorem c7_witness :
    GoodDecision { status := "AI Reconciled (With Fees)",
                   transaction_id := some 1,
                   confidence := some "90%",
                   reason := "YES - likely a processing fee.",
                   matched_data := some feeTxn } :=
  @c7_decision_invariant scoreStub judgeYes acmeInvoice [feeTxn, exactTxn]
    { status := "AI Reconciled (With Fees)", transaction_id := some 1,
      confidence := some "90%", reason := "YES - likely a processing fee.",
      matched_data := some feeTxn }
    [Event.scored 0 70, Event.judged 0] (by decide)

/-- C8: on an empty transaction sequence the function returns the Pending
decision whose reason reports that no bank transactions are available,
with no transaction_id, confidence or snapshot, no error, and an empty
trace (neither the scorer nor the judgment service is called). -/
theorem c8_empty_transactions (score : Score) (judge : Judge) (inv : Invoice) :
    reconcile_invoice_with_ai score judge inv [] =
      (Except.ok { status := "Pending",
                   reason := "No bank transactions available to match." }, []) := rfl

/-- C9: the function is deterministic.  It is a pure function of the
scorer, the judgment service and its inputs, so two calls whose judgment
services agree on every query (a deterministic stub) return identical
results. -/
theorem c9_deterministic (score : Score) (judge1 judge2 : Judge) (inv : Invoice)
    (txns : List Transaction) (h : ∀ x, judge1 x = judge2 x) :
    reconcile_invoice_with_ai score judge1 inv txns =
      reconcile_invoice_with_ai score judge2 inv txns := by
  rw [funext h]

/-- C9 witness: two syntactically different but extensionally equal
judgment stubs give identical results. -/
theorem c9_witness :
    reconcile_invoice_with_ai scoreStub judgeNo acmeInvoice [feeTxn] =
      reconcile_invoice_with_ai scoreStub (fun x => judgeNo x) acmeInvoice [feeTxn] :=
  c9_deterministic scoreStub judgeNo (fun x => judgeNo x) acmeInvoice [feeTxn]
    (fun _ => rfl)

/-- C10: the result is independent of every transaction's status field.
Rewriting each row's status by an arbitrary function g changes neither
the outcome (error or decision, compared after erasing the status inside
the matched snapshot) nor the trace of scorer and judgment events; in
particular a row already marked Reconciled is equally eligible. -/
theorem c10_status_independent (score : Score) (judge : Judge) (inv : Invoice)
    (txns : List Transaction) (g : Transaction → String) :
    (reconcile_invoice_with_ai score judge inv (txns.map (statusSet g))).1.map
        scrubDecision =
      (reconcile_invoice_with_ai score judge inv txns).1.map scrubDecision ∧
    (reconcile_invoice_with_ai score judge inv (txns.map (statusSet g))).2 =
      (reconcile_invoice_with_ai score judge inv txns).2 := by
  unfold reconcile_invoice_with_ai
  by_cases hempty : txns.isEmpty
  · have hempty2 : (txns.map (statusSet g)).isEmpty = true := by
      cases txns with
      | nil => rfl
      | cons a l => simp at hempty
    rw [if_pos hempty, if_pos hempty2]
    exact ⟨rfl, rfl⟩
  · have hempty2 : ¬(txns.map (statusSet g)).isEmpty = true := by
      cases txns with
      | nil => simp at hempty
      | cons a l => simp
    rw [if_neg hempty, if_neg hempty2]
    cases hA : invAmount inv with
    | error e => exact ⟨rfl, rfl⟩
    | ok A =>
      constructor
      · show Except.map scrubDecision
            (reconcileLoop score judge inv.vendorKey inv.numberKey A 0
              (List.map (statusSet g) txns)).1 =
          Except.map scrubDecision
            (reconcileLoop score judge inv.vendorKey inv.numberKey A 0 txns).1
        rw [loop_statusSet g 0 txns]
        cases hr : (reconcileLoop score judge inv.vendorKey inv.numberKey A 0 txns).1 with
        | ok d => simp [Except.map, scrub_statusMap]
        | error e => simp [Except.map]
      · show (reconcileLoop score judge inv.vendorKey inv.numberKey A 0
            (List.map (statusSet g) txns)).2 =
          (reconcileLoop score judge inv.vendorKey inv.numberKey A 0 txns).2
        rw [loop_statusSet g 0 txns]
